import Mathlib

/-!
# Verification of the genstruct struct-graph code emission engine

A shallow embedding, in Lean, of the core of the `genstruct` Go code
generator: the reflected-value data model, the identifier resolver
(`slugToIdentifier`, `getStructIdentifier`), the literal emitter
(`getValueStatement` and friends), the reference-resolution engine
(`generateReferenceSingle` / `generateReferenceSlice` /
`generateStructGenField`), the per-dataset declaration emitters
(`generateConstants` / `generateVariables` / `generateSlice`), the
pluralization heuristics, and the `Generate` orchestration with its
validation and naming-swap discipline.

Reflected Go values are modelled as an inductive `GoValue`; reflected Go
types as `GoType`; the jennifer statements that the emitters build are
modelled as an expression AST (`Expr` / `TypeExpr`).  Machine integers
that only flow into literals are modelled as `Int`/`Nat` (no arithmetic
is performed on them).  Wall-clock reads (`time.Now().UnixNano()` in the
synthetic-identifier fallback) are modelled by a `nowNano` field sampled
into the generator; that fallback path is exercised by none of the
theorems below.
-/

namespace Genstruct

/-- The reflect.Kind values the generator inspects. -/
inductive GoKind where
  | boolK | intK | uintK | floatK | stringK
  | arrayK | sliceK | mapK | structK | ptrK | interfaceK | otherK
deriving DecidableEq, Repr

/-- A named Go struct type: its bare name (`reflect.Type.Name()`) and its
defining package path (`reflect.Type.PkgPath()`; empty for unnamed or
builtin types). -/
structure GoStructTy where
  name : String
  pkgPath : String
deriving DecidableEq, Repr

/-! Character-list implementations of the string helpers the generator
uses (`strings.Contains` with a one-character needle, `strings.ToLower`,
`strings.Split` with a one-character separator).  They agree with the
`String` library versions on the ASCII input involved, but are defined
by structural recursion over the character list, so closed terms
evaluate. -/

def strContainsChar (s : String) (c : Char) : Bool :=
  s.data.contains c

def strToLower (s : String) : String :=
  ⟨s.data.map Char.toLower⟩

def splitOnCharAux (sep : Char) (acc : List Char) :
    List Char → List (List Char)
  | [] => [acc.reverse]
  | c :: cs =>
    if c = sep then acc.reverse :: splitOnCharAux sep [] cs
    else splitOnCharAux sep (c :: acc) cs

/-- `strings.Split(s, <one-char sep>)`: every separator occurrence
splits, empty pieces kept. -/
def splitOnChar (sep : Char) (s : String) : List String :=
  (splitOnCharAux sep [] s.data).map (fun l => ⟨l⟩)

/-- Last `/`-separated component of a package path (the display package
name that `reflect.Type.String()` uses). -/
def lastPathComponent (s : String) : String :=
  match (splitOnChar '/' s).getLast? with
  | some c => c
  | none => s

/-- `reflect.Type.String()` for a named struct type: `pkg.Name` with the
short package name, or the bare name for package-less types. -/
def GoStructTy.tyString (st : GoStructTy) : String :=
  if st.pkgPath = "" then st.name
  else lastPathComponent st.pkgPath ++ "." ++ st.name

/-- Reflected Go types, restricted to the shapes the generator inspects.
Numeric kinds (all int/uint/float/complex widths) only ever flow into
`jen.Id(t.String())`, so they are collapsed into `numTy` carrying that
rendered name. -/
inductive GoType where
  | boolTy
  | numTy (s : String)
  | strTy
  | arrayTy (n : Nat) (elem : GoType)
  | sliceTy (elem : GoType)
  | mapTy (key elem : GoType)
  | ptrTy (elem : GoType)
  | structTy (st : GoStructTy)
  | ifaceTy (numMethods : Nat)
  | otherTy (s : String)
deriving DecidableEq, Repr

/-- The components `getValueStatement` extracts from a `time.Time` value:
`Year()`, `Month().String()`, `Day()`, `Hour()`, `Minute()`, `Second()`,
`Nanosecond()`. -/
structure TimeParts where
  year : Int
  month : String
  day : Int
  hour : Int
  minute : Int
  second : Int
  nanosecond : Int
deriving DecidableEq, Repr

mutual
/-- A reflected Go value.  `timeVal` stands for a struct value whose
type is `time.Time` (reflect reports it with kind Struct and
`Type().String() = "time.Time"`; the emitter extracts the `TimeParts`
via the type assertion).  `ptrVal none` is a nil pointer.  `otherVal`
covers the remaining kinds, carrying the `fmt.Sprintf("%v", ...)`
rendering used by the fallback branch.  Float/complex values wrap their
raw payload into a literal exactly like `intVal` and are not modelled
separately (no claim concerns them). -/
inductive GoValue where
  | boolVal (b : Bool)
  | intVal (i : Int)
  | uintVal (u : Nat)
  | strVal (s : String)
  | arrayVal (elemTy : GoType) (elems : List GoValue)
  | sliceVal (elemTy : GoType) (elems : List GoValue)
  | mapVal (keyTy elemTy : GoType) (entries : List (GoValue × GoValue))
  | timeVal (t : TimeParts)
  | structVal (ty : GoStructTy) (fields : List GoField)
  | ptrVal (pointee : Option GoValue)
  | ifaceVal (v : Option GoValue)
  | otherVal (display : String)

/-- One field of a reflected struct value: name, exportedness,
anonymity (embedding), the raw `structgen` tag (`none` when the tag is
absent), the field's declared type and its value. -/
inductive GoField where
  | mk (name : String) (exported : Bool) (anonymous : Bool)
       (tag : Option String) (ty : GoType) (value : GoValue)
end

def GoField.name : GoField → String
  | .mk n _ _ _ _ _ => n

def GoField.exported : GoField → Bool
  | .mk _ e _ _ _ _ => e

def GoField.anonymous : GoField → Bool
  | .mk _ _ a _ _ _ => a

def GoField.tag : GoField → Option String
  | .mk _ _ _ t _ _ => t

def GoField.ty : GoField → GoType
  | .mk _ _ _ _ t _ => t

def GoField.value : GoField → GoValue
  | .mk _ _ _ _ _ v => v

/-- `reflect.Value.Kind()`. -/
def GoValue.kind : GoValue → GoKind
  | .boolVal _ => .boolK
  | .intVal _ => .intK
  | .uintVal _ => .uintK
  | .strVal _ => .stringK
  | .arrayVal _ _ => .arrayK
  | .sliceVal _ _ => .sliceK
  | .mapVal _ _ _ => .mapK
  | .timeVal _ => .structK
  | .structVal _ _ => .structK
  | .ptrVal _ => .ptrK
  | .ifaceVal _ => .interfaceK
  | .otherVal _ => .otherK

/-- The `if v.Kind() == reflect.Pointer { v = v.Elem() }` idiom used all
over the generator.  Dereferencing a nil pointer yields reflect's zero
Value, on which every `FieldByName` lookup comes back invalid; we model
that by leaving the nil pointer in place (all field lookups on it fail). -/
def GoValue.derefPtr : GoValue → GoValue
  | .ptrVal (some v) => v
  | v => v

/-- `reflect.Value.FieldByName` followed by reading the field's value:
defined (valid) only on struct values that declare the field.
(`FieldByName` finds both exported and unexported fields.) -/
def GoValue.fieldByName (v : GoValue) (n : String) : Option GoValue :=
  match v with
  | .structVal _ fields => (fields.find? (fun f => f.name == n)).map GoField.value
  | _ => none

/-- `reflect.Value.String()`: the string payload for string kinds; for
any other kind reflect returns a `"<T Value>"` placeholder instead of
panicking.  Every call site below is shape-checked to strings first. -/
def GoValue.reflectString : GoValue → String
  | .strVal s => s
  | _ => "<non-string Value>"

/-! ## Identifier resolver: `slugToIdentifier` (src/generator.go:473-487)

The Go routine replaces every maximal run of characters outside
`[a-zA-Z0-9]` with a single space (`regexp "[^a-zA-Z0-9]+"`), splits the
result into words with `strings.Fields`, capitalizes each word's first
byte and lowercases the rest, and concatenates.  Identifier inputs are
ASCII, where Go's byte-level `word[0:1]` slicing and `strings.ToUpper` /
`strings.ToLower` coincide with per-`Char` case mapping. -/

/-- Character class of the regex `[a-zA-Z0-9]`. -/
def isAlnum (c : Char) : Bool :=
  ('a' ≤ c && c ≤ 'z') || ('A' ≤ c && c ≤ 'Z') || ('0' ≤ c && c ≤ '9')

/-- `regexp.MustCompile("[^a-zA-Z0-9]+").ReplaceAllString(s, " ")`,
as a left-to-right scan: each maximal run of non-alphanumeric
characters becomes one space.  The Boolean state records whether the
scan is inside a run whose replacement space was already emitted. -/
def replaceRunsFrom : Bool → List Char → List Char
  | _, [] => []
  | inRun, c :: cs =>
    if isAlnum c then c :: replaceRunsFrom false cs
    else if inRun then replaceRunsFrom true cs
    else ' ' :: replaceRunsFrom true cs

def replaceNonAlnumRuns (l : List Char) : List Char :=
  replaceRunsFrom false l

/-- `strings.Fields` restricted to the plain space (after the regex
replacement the only whitespace present is `' '`): split around runs of
spaces, dropping empty fields.  `acc` holds the reversed current word. -/
def fieldsAux : List Char → List Char → List (List Char)
  | acc, [] => if acc = [] then [] else [acc.reverse]
  | acc, c :: cs =>
    if c = ' ' then
      if acc = [] then fieldsAux [] cs else acc.reverse :: fieldsAux [] cs
    else fieldsAux (c :: acc) cs

def goFields (l : List Char) : List (List Char) :=
  fieldsAux [] l

/-- `strings.ToUpper(word[0:1]) + strings.ToLower(word[1:])` — the
words only contain ASCII alphanumerics, where Go's byte-level slicing
and Unicode case mapping coincide with per-`Char` case mapping. -/
def capitalizeFragment : List Char → List Char
  | [] => []
  | c :: rest => c.toUpper :: rest.map Char.toLower

/-- `slugToIdentifier` (src/generator.go:473-487): converts a display
string to a Go identifier fragment. -/
def slugToIdentifier (s : String) : String :=
  ⟨((goFields (replaceNonAlnumRuns s.data)).map capitalizeFragment).flatten⟩

/-- Modelled from the spec (§4.1): split the input on every maximal run
of non-alphanumeric characters, in one pass (`acc` holds the reversed
fragment under construction; empty fragments are dropped).  Used only
for the refinement comparison against the two-phase Go pipeline. -/
def groupsAux : List Char → List Char → List (List Char)
  | acc, [] => if acc = [] then [] else [acc.reverse]
  | acc, c :: cs =>
    if isAlnum c then groupsAux (c :: acc) cs
    else if acc = [] then groupsAux [] cs else acc.reverse :: groupsAux [] cs

def alnumGroups (l : List Char) : List (List Char) :=
  groupsAux [] l

/-- Modelled from the spec (§4.1): the fragment conversion described in
the spec's words — split on any non-alphanumeric run, capitalize each
fragment's first letter, lowercase the remainder, drop empty fragments,
concatenate with no separators. -/
def specFragmentConversion (s : String) : String :=
  ⟨((alnumGroups s.data).map capitalizeFragment).flatten⟩

theorem isAlnum_ne_space {c : Char} (h : isAlnum c = true) : c ≠ ' ' := by
  intro hc; subst hc; simp [isAlnum] at h

/-- The two-phase Go pipeline (replace non-alphanumeric runs with a
space, then split into fields around spaces) computes exactly the
maximal alphanumeric groups of the input. -/
theorem goFields_replaceRuns (l : List Char) :
    goFields (replaceNonAlnumRuns l) = alnumGroups l := by
  have H : ∀ l : List Char,
      (∀ acc, fieldsAux acc (replaceRunsFrom false l) = groupsAux acc l) ∧
      (fieldsAux [] (replaceRunsFrom true l) = groupsAux [] l) := by
    intro l
    induction l with
    | nil => exact ⟨fun acc => rfl, rfl⟩
    | cons c cs ih =>
        obtain ⟨ihF, ihT⟩ := ih
        by_cases h : isAlnum c
        · have hc : c ≠ ' ' := isAlnum_ne_space h
          constructor
          · intro acc
            simp only [replaceRunsFrom, if_pos h, fieldsAux, if_neg hc,
              groupsAux]
            exact ihF (c :: acc)
          · simp only [replaceRunsFrom, if_pos h, fieldsAux, if_neg hc,
              groupsAux, if_pos h]
            exact ihF [c]
        · constructor
          · intro acc
            simp only [replaceRunsFrom, if_neg h, fieldsAux, if_pos rfl,
              groupsAux]
            by_cases ha : acc = []
            · simp [ha, ihT]
            · simp [ha, ihT]
          · simp only [replaceRunsFrom, if_neg h, groupsAux, if_neg h,
              if_pos rfl]
            exact ihT
  exact (H l).1 []

/-! ## Pluralization heuristics

`generateSlice` (src/unnamed/part_000:129-148) derives the "all
records" collection name from the configured type name; the deferred
`init`-function generator (src/reference.go:86-95) derives the
collection name a second time, with a fixed irregular-plural table and
a plain-`s` default.  Go indexes bytes; type names are ASCII, where
bytes and `Char`s coincide. -/

/-- The collection name computed by `generateSlice`
(src/unnamed/part_000:129-148): `TypeName[len-1]` is `s`/`x`/`z`, or
the name ends in `"sh"`/`"ch"` → `All<name>es`; `TypeName[len-1]` is
`y` → `All<name minus y>ies`; otherwise `All<name>s`.  Go panics on an
empty name (type names are never empty); the model totalizes with a
default last character. -/
def pluralSliceName (typeName : String) : String :=
  let cs := typeName.data
  let lastC := cs.getLastD 'A'
  if lastC = 's' || lastC = 'x' || lastC = 'z'
      || ['s', 'h'].isSuffixOf cs || ['c', 'h'].isSuffixOf cs then
    "All" ++ typeName ++ "es"
  else if lastC = 'y' then
    "All" ++ (⟨cs.dropLast⟩ : String) ++ "ies"
  else
    "All" ++ typeName ++ "s"

/-- The collection name computed inside `generateInitFunction`
(src/reference.go:86-95): a plain-`s` default overridden by the fixed
irregular-plural table. -/
def initTargetSliceName (targetTypeName : String) : String :=
  match targetTypeName with
  | "Entry" => "AllEntries"
  | "Category" => "AllCategories"
  | _ => "All" ++ targetTypeName ++ "s"

def isVowel (c : Char) : Bool :=
  c = 'a' || c = 'e' || c = 'i' || c = 'o' || c = 'u'
    || c = 'A' || c = 'E' || c = 'I' || c = 'O' || c = 'U'

/-- Modelled from the claim's words: names ending in s, x, z, "sh" or
"ch" append "es"; names ending in consonant+"y" drop the "y" and append
"ies"; names in the fixed exception table of known irregular plurals use
their irregular form; all other names append a plain "s". -/
def claimCollectionName (t : String) : String :=
  if t = "Entry" then "AllEntries"
  else if t = "Category" then "AllCategories"
  else
    match t.data.reverse with
    | [] => "All" ++ t ++ "s"
    | c :: rest =>
      if c = 's' || c = 'x' || c = 'z'
          || (c = 'h' && (rest.head? = some 's' || rest.head? = some 'c')) then
        "All" ++ t ++ "es"
      else if c = 'y' &&
          (match rest.head? with
           | some d => d.isAlpha && !isVowel d
           | none => false) then
        "All" ++ (⟨rest.reverse⟩ : String) ++ "ies"
      else "All" ++ t ++ "s"

/-- Modelled from the amended claim's words: names ending in s, x, z,
"sh" or "ch" append "es"; names ending in "y" — regardless of the
preceding character — drop the "y" and append "ies"; all other names
append a plain "s" (the irregular-plural table exists only in the
deferred-init routine's naming). -/
def amendedCollectionName (t : String) : String :=
  match t.data.reverse with
  | [] => "All" ++ t ++ "s"
  | c :: rest =>
    if c = 's' || c = 'x' || c = 'z'
        || (c = 'h' && rest.head? = some 's')
        || (c = 'h' && rest.head? = some 'c') then
      "All" ++ t ++ "es"
    else if c = 'y' then
      "All" ++ (⟨rest.reverse⟩ : String) ++ "ies"
    else "All" ++ t ++ "s"

theorem isSuffixOf_pair_eq (a b c : Char) (rest : List Char) :
    ([a, b].isSuffixOf (rest.reverse ++ [c])) =
      (decide (c = b) && decide (rest.head? = some a)) := by
  cases rest with
  | nil =>
      simp only [List.reverse_nil, List.nil_append, List.isSuffixOf,
        List.head?_nil]
      simp [List.isPrefixOf]
  | cons d rest' =>
      simp only [List.isSuffixOf, List.reverse_append, List.reverse_reverse,
        List.reverse_cons, List.head?_cons, List.singleton_append,
        List.cons_append, List.nil_append]
      simp only [List.isPrefixOf, Bool.and_true, Option.some.injEq]
      by_cases h1 : a = d
      · subst h1
        by_cases h2 : b = c
        · subst h2; simp
        · have h2' : ¬(c = b) := fun hh => h2 hh.symm
          simp [h2, h2']
      · have h1' : ¬(d = a) := fun hh => h1 hh.symm
        by_cases h2 : b = c
        · subst h2; simp [h1, h1']
        · have h2' : ¬(c = b) := fun hh => h2 hh.symm
          simp [h1, h1', h2, h2']

theorem data_eq_of_reverse {t : String} {c : Char} {rest : List Char}
    (hr : t.data.reverse = c :: rest) : t.data = rest.reverse ++ [c] := by
  have h2 := congrArg List.reverse hr
  simpa using h2

/-- `generateSlice`'s collection naming agrees with the amended
heuristic (the `y` rule fires for every trailing `y`, vowel or not). -/
theorem pluralSliceName_eq_amendedCollectionName (t : String) (h : t ≠ "") :
    pluralSliceName t = amendedCollectionName t := by
  have hd : t.data ≠ [] := by
    intro hh
    apply h
    cases t with
    | mk l =>
        simp only [String.data] at hh
        subst hh
        rfl
  cases hr : t.data.reverse with
  | nil =>
      exact absurd (by simpa using congrArg List.reverse hr) hd
  | cons c rest =>
      have ht : t.data = rest.reverse ++ [c] := data_eq_of_reverse hr
      have e1 : t.data.getLastD 'A' = c := by
        rw [ht]; exact List.getLastD_concat _ _ _
      have e2 : (['s', 'h'].isSuffixOf t.data) =
          (decide (c = 'h') && decide (rest.head? = some 's')) := by
        rw [ht]; exact isSuffixOf_pair_eq 's' 'h' c rest
      have e3 : (['c', 'h'].isSuffixOf t.data) =
          (decide (c = 'h') && decide (rest.head? = some 'c')) := by
        rw [ht]; exact isSuffixOf_pair_eq 'c' 'h' c rest
      have e4 : t.data.dropLast = rest.reverse := by
        rw [ht]; exact List.dropLast_concat
      simp only [pluralSliceName, amendedCollectionName, hr, e1, e2, e3, e4]

/-- C7: the declaration-name fragment conversion `slugToIdentifier`
splits its input on every maximal run of non-alphanumeric characters,
capitalizes the first letter of each fragment, lowercases the
remainder, drops empty fragments, and concatenates them with no
separators — the two-phase Go pipeline (regex replacement followed by
`strings.Fields`) coincides with the direct fragment description.  The
routine is a pure Lean function, so identical inputs yield identical
fragments by construction. -/
theorem slugToIdentifier_C7_spec (s : String) :
    slugToIdentifier s = specFragmentConversion s := by
  unfold slugToIdentifier specFragmentConversion
  rw [goFields_replaceRuns]

/-- C6 counterexample: the claim's pluralization heuristic requires a
consonant before a trailing "y" for the "ies" rule; `generateSlice`
applies the "ies" rule to every trailing "y".  On the kind name "Day"
the code produces "AllDaies" while the claimed heuristic produces
"AllDays". -/
theorem pluralization_C6_counterexample :
    pluralSliceName "Day" = "AllDaies" ∧
      claimCollectionName "Day" = "AllDays" ∧
      pluralSliceName "Day" ≠ claimCollectionName "Day" := by
  refine ⟨by decide, by decide, by decide⟩

/-- C6 (amended): `generateSlice` derives the collection name by: names
ending in s, x, z, "sh" or "ch" append "es"; names ending in "y" —
regardless of the preceding character — drop the "y" and append "ies";
all other names append a plain "s".  The fixed irregular-plural table
(Entry, Category) exists only in the deferred-init routine's collection
naming, where it agrees with `generateSlice`'s "y" rule. -/
theorem pluralization_C6_amended (t : String) (h : t ≠ "") :
    pluralSliceName t = amendedCollectionName t ∧
      initTargetSliceName "Entry" = pluralSliceName "Entry" ∧
      initTargetSliceName "Category" = pluralSliceName "Category" :=
  ⟨pluralSliceName_eq_amendedCollectionName t h, by decide, by decide⟩

/-- C6 witness: the amended pluralization theorem applied at the kind
name "Tag". -/
theorem pluralization_C6_witness :
    pluralSliceName "Tag" = amendedCollectionName "Tag" ∧
      initTargetSliceName "Entry" = pluralSliceName "Entry" ∧
      initTargetSliceName "Category" = pluralSliceName "Category" :=
  pluralization_C6_amended "Tag" (by decide)

/-! ## Generator state (src/generator.go:18-34, 121-142)

The `Generator` struct's configuration and internal state.  The
`jen.File` accumulator is modelled by returning the emitted
declarations; the logger performs I/O only.  `Refs` (a Go map) is
modelled as an association list with replace-on-insert, looked up by
key — faithful to Go map semantics for every lookup.  The wall clock
read by the synthetic-identifier fallback is modelled by the sampled
`nowNano` field. -/

structure Generator where
  packageName : String := ""
  typeName : String := ""
  constantIdent : String := ""
  varPrefix : String := ""
  outputFile : String := ""
  identifierFields : List String := ["ID", "Name", "Slug", "Title", "Key", "Code"]
  customVarNameFn : Option (GoValue → String) := none
  refs : List (String × GoValue) := []
  nowNano : Nat := 0

/-- Go map assignment `m[k] = v`: replace the binding in place, or add
it. -/
def insertRef : List (String × GoValue) → String → GoValue → List (String × GoValue)
  | [], k, v => [(k, v)]
  | (k', v') :: rest, k, v =>
    if k' == k then (k', v) :: rest else (k', v') :: insertRef rest k v

/-- Go map read `m[k]`. -/
def lookupRef (m : List (String × GoValue)) (k : String) : Option GoValue :=
  (m.find? (fun p => p.1 == k)).map Prod.snd

/-- Struct fields in declaration order (`NumField`/`Field(i)`); Go
panics on non-struct values, which the generator never reaches. -/
def GoValue.fieldsOf : GoValue → List GoField
  | .structVal _ fs => fs
  | _ => []

/-- `getStructIdentifier` (src/generator.go:490-519): dereference a
pointer; prefer the custom naming function; otherwise the first
configured identifier field holding a non-empty string; otherwise the
first non-empty string field in declaration order; otherwise the
synthetic `TypeName-<UnixNano>` fallback. -/
def Generator.getStructIdentifier (g : Generator) (v : GoValue) : String :=
  let sv := v.derefPtr
  match g.customVarNameFn with
  | some fn => fn sv
  | none =>
    match g.identifierFields.findSome? (fun fieldName =>
        match sv.fieldByName fieldName with
        | some (.strVal s) => if s ≠ "" then some s else none
        | _ => none) with
    | some s => s
    | none =>
      match sv.fieldsOf.findSome? (fun f =>
          match f.value with
          | .strVal s => if s ≠ "" then some s else none
          | _ => none) with
      | some s => s
      | none => g.typeName ++ "-" ++ toString g.nowNano

/-! ## Expression and type ASTs

The jennifer statements the emitters build, restricted to the shapes
they actually construct. -/

inductive Lit where
  | intL (i : Int)
  | natL (n : Nat)
  | strL (s : String)
  | boolL (b : Bool)
deriving DecidableEq, Repr

inductive TypeExpr where
  | named (name : String)
  | qualNamed (pkgPath name : String)
  | boolT
  | stringT
  | ifaceT
  | ptrTo (t : TypeExpr)
  | sliceOf (t : TypeExpr)
  | arrayOf (n : Nat) (t : TypeExpr)
  | mapOf (key val : TypeExpr)
deriving DecidableEq, Repr

inductive Expr where
  | lit (l : Lit)
  | id (name : String)
  | qual (pkgPath name : String)
  | nilE
  | addrOf (e : Expr)
  | call (fn : Expr) (args : List Expr)
  | composite (ty : TypeExpr) (elems : List Expr)
  | structComposite (ty : TypeExpr) (fields : List (String × Expr))
  | mapComposite (ty : TypeExpr) (entries : List (Expr × Expr))

/-- `getTypeStatement` (src/types.go:11-74).  The Array and Slice cases
share one branch rendering `[]T` (the source's `[]*T` special case
produces the same statement as the general pointer recursion). -/
def Generator.getTypeStatement (g : Generator) : GoType → TypeExpr
  | .boolTy => .boolT
  | .numTy s => .named s
  | .strTy => .stringT
  | .arrayTy _ elem => .sliceOf (g.getTypeStatement elem)
  | .sliceTy elem => .sliceOf (g.getTypeStatement elem)
  | .mapTy k v => .mapOf (g.getTypeStatement k) (g.getTypeStatement v)
  | .structTy st =>
      if st.tyString = "time.Time" then .qualNamed "time" "Time"
      else if st.pkgPath ≠ "" ∧ st.pkgPath ≠ "main" ∧ st.pkgPath ≠ g.packageName
          ∧ strContainsChar g.outputFile '/' ∧ strContainsChar st.tyString '.' then
        .qualNamed st.pkgPath st.name
      else .named st.name
  | .ptrTy e => .ptrTo (g.getTypeStatement e)
  | .ifaceTy _ => .ifaceT
  | .otherTy s => .named s

/-! ## Reference resolution engine (src/values.go:236-503) -/

/-- `reflect.Type.Name()` as used on reference target types (named
struct types; unnamed types report `""`). -/
def GoType.nameOf : GoType → String
  | .structTy st => st.name
  | _ => ""

/-- `reflect.Type.PkgPath()` as used on reference target types. -/
def GoType.pkgPathOf : GoType → String
  | .structTy st => st.pkgPath
  | _ => ""

def GoType.isPtrTy : GoType → Bool
  | .ptrTy _ => true
  | _ => false

/-- `if t.Kind() == reflect.Pointer { t = t.Elem() }`. -/
def GoType.elemIfPtr : GoType → GoType
  | .ptrTy e => e
  | t => t

/-- `t.Kind() == reflect.Struct` (`time.Time` is a struct kind). -/
def GoType.isStructKind : GoType → Bool
  | .structTy _ => true
  | _ => false

/-- The identifier-field loop of the matchers: try each configured
identifier field; a field that is present, string-typed and equal to
the source identifier is a match (`break` ends the field loop). -/
def anyIdFieldMatches (idFields : List String) (refStruct : GoValue)
    (idValue : String) : Bool :=
  idFields.any (fun idField =>
    match refStruct.fieldByName idField with
    | some (.strVal s) => s == idValue
    | _ => false)

/-- The record loop of `generateReferenceSingle`: scan records in
order, dereference pointer records, and return the first record
matching the identifier (the function returns out of the loop). -/
def findFirstMatch (idFields : List String) (idValue : String) :
    List GoValue → Option GoValue
  | [] => none
  | e :: rest =>
    let refStruct := e.derefPtr
    if anyIdFieldMatches idFields refStruct idValue then some refStruct
    else findFirstMatch idFields idValue rest

/-- Bare name for value semantics, address-of name for pointer
semantics. -/
def varRefExpr (isPointer : Bool) (refVarName : String) : Expr :=
  if isPointer then .addrOf (.id refVarName) else .id refVarName

/-- The export-mode qualification test of `generateReferenceSlice`
(src/values.go:318-324). -/
def Generator.refUseQualified (g : Generator) (pkgPath : String) : Bool :=
  strContainsChar g.outputFile '/' && pkgPath != ""
      && pkgPath != "main" && pkgPath != g.packageName

/-- The slice type header `[]T` / `[]*T` / `[]pkg.T` / `[]*pkg.T`
constructed at each exit of `generateReferenceSlice`. -/
def sliceRefHeader (isPointerSlice useQualified : Bool)
    (pkgPath structTypeName : String) : TypeExpr :=
  let base := if useQualified then TypeExpr.qualNamed pkgPath structTypeName
              else TypeExpr.named structTypeName
  if isPointerSlice then .sliceOf (.ptrTo base) else .sliceOf base

/-- `srcValue.Index(i).String()` over the source slice (call sites
shape-check the source to a slice of strings first). -/
def srcStringList : GoValue → List String
  | .sliceVal _ elems => elems.map GoValue.reflectString
  | _ => []

/-- `generateReferenceSlice` (src/values.go:305-422): for each source
identifier, scan the whole reference dataset; every record whose first
matching identifier field equals the identifier contributes one
reference (the `break` only ends the identifier-field loop, not the
record loop). -/
def Generator.generateReferenceSlice (g : Generator) (srcValue : GoValue)
    (targetType : GoType) : Expr :=
  let elemTy := match targetType with
    | .sliceTy e => e
    | t => t
  let isPointerSlice := elemTy.isPtrTy
  let refTy := elemTy.elemIfPtr
  let structTypeName := refTy.nameOf
  let pkgPath := refTy.pkgPathOf
  let header := sliceRefHeader isPointerSlice (g.refUseQualified pkgPath)
      pkgPath structTypeName
  match lookupRef g.refs structTypeName with
  | none => .composite header []
  | some refDataObj =>
    match refDataObj with
    | .sliceVal _ refElems =>
        .composite header ((srcStringList srcValue).flatMap (fun idValue =>
          refElems.flatMap (fun re =>
            let refStruct := re.derefPtr
            if anyIdFieldMatches g.identifierFields refStruct idValue then
              [varRefExpr isPointerSlice
                (structTypeName ++ slugToIdentifier (g.getStructIdentifier refStruct))]
            else [])))
    | .arrayVal _ refElems =>
        .composite header ((srcStringList srcValue).flatMap (fun idValue =>
          refElems.flatMap (fun re =>
            let refStruct := re.derefPtr
            if anyIdFieldMatches g.identifierFields refStruct idValue then
              [varRefExpr isPointerSlice
                (structTypeName ++ slugToIdentifier (g.getStructIdentifier refStruct))]
            else [])))
    | _ => .composite header []

/-- The zero-valued placeholder `T{}` / `&T{}` emitted by
`generateReferenceSingle` when resolution fails. -/
def singleRefPlaceholder (isPointer : Bool) (structTypeName : String) : Expr :=
  if isPointer then .addrOf (.composite (.named structTypeName) [])
  else .composite (.named structTypeName) []

/-- `generateReferenceSingle` (src/values.go:432-503): resolve one
identifier against the reference dataset, stopping at the first
matching record; without a match (or without the dataset) produce the
zero-valued placeholder `T{}` / `&T{}`. -/
def Generator.generateReferenceSingle (g : Generator) (srcValue : GoValue)
    (targetType : GoType) : Expr :=
  let isPointer := targetType.isPtrTy
  let structTypeName := targetType.elemIfPtr.nameOf
  let placeholder := singleRefPlaceholder isPointer structTypeName
  match lookupRef g.refs structTypeName with
  | none => placeholder
  | some refDataObj =>
    match refDataObj with
    | .sliceVal _ refElems =>
        (match findFirstMatch g.identifierFields srcValue.reflectString refElems with
         | some refStruct =>
             varRefExpr isPointer
               (structTypeName ++ slugToIdentifier (g.getStructIdentifier refStruct))
         | none => placeholder)
    | .arrayVal _ refElems =>
        (match findFirstMatch g.identifierFields srcValue.reflectString refElems with
         | some refStruct =>
             varRefExpr isPointer
               (structTypeName ++ slugToIdentifier (g.getStructIdentifier refStruct))
         | none => placeholder)
    | _ => placeholder

/-- `generateStructGenField` (src/values.go:250-295): find the source
field named by the tag; dispatch on the two supported binding shapes
(string-slice → struct/pointer slice, string → struct/pointer);
anything else is skipped (`nil`). -/
def Generator.generateStructGenField (g : Generator) (fields : List GoField)
    (srcFieldName : String) (targetField : GoField) : Option Expr :=
  match fields.find? (fun f => f.name == srcFieldName) with
  | none => none
  | some srcField =>
    let targetType := targetField.ty
    if (match targetType with
        | .sliceTy e => e.isStructKind || (e.isPtrTy && e.elemIfPtr.isStructKind)
        | _ => false) &&
        (match srcField.ty with
         | .sliceTy .strTy => true
         | _ => false) then
      some (g.generateReferenceSlice srcField.value targetType)
    else if (targetType.isStructKind
        || (targetType.isPtrTy && targetType.elemIfPtr.isStructKind)) &&
        srcField.ty = .strTy then
      some (g.generateReferenceSingle srcField.value targetType)
    else none

/-! ## Literal emitter (src/values.go:13-234) -/

theorem sizeOf_value_lt_field (f : GoField) : sizeOf f.value < sizeOf f := by
  cases f with
  | mk n e a t ty v => simp [GoField.value]

theorem sizeOf_field_value_lt_of_mem {f : GoField} {fields : List GoField}
    (h : f ∈ fields) : sizeOf f.value < sizeOf fields :=
  lt_trans (sizeOf_value_lt_field f) (List.sizeOf_lt_of_mem h)

theorem sizeOf_inner_lt {inf : GoField} {innerFields : List GoField}
    {ty : GoStructTy} {f : GoField} {fields : List GoField}
    (hinf : inf ∈ innerFields) (hfv : f.value = .structVal ty innerFields)
    (hf : f ∈ fields) : sizeOf inf.value < sizeOf fields := by
  have a1 := sizeOf_value_lt_field inf
  have a2 := List.sizeOf_lt_of_mem hinf
  have a3 : sizeOf innerFields < sizeOf f.value := by
    rw [hfv]; simp
  have a4 := sizeOf_value_lt_field f
  have a5 := List.sizeOf_lt_of_mem hf
  omega

theorem sizeOf_pair_fst_lt (kv : GoValue × GoValue) : sizeOf kv.1 < sizeOf kv := by
  obtain ⟨a, b⟩ := kv
  simp only [Prod.mk.sizeOf_spec]
  omega

theorem sizeOf_pair_snd_lt (kv : GoValue × GoValue) : sizeOf kv.2 < sizeOf kv := by
  obtain ⟨a, b⟩ := kv
  simp only [Prod.mk.sizeOf_spec]
  omega

mutual

/-- `getValueStatement` (src/values.go:13-107): render a reflected
value as an expression, dispatching on its kind.  A `time.Time` struct
becomes an explicit `time.Date(y, time.Month, d, h, m, s, ns, time.UTC)`
constructor call; other structs become field-literal composites whose
fields are produced by the two-pass `generateStructValues`; the default
branch wraps the `%v` string rendering. -/
def Generator.getValueStatement (g : Generator) : GoValue → Expr
  | .boolVal b => .lit (.boolL b)
  | .intVal i => .lit (.intL i)
  | .uintVal u => .lit (.natL u)
  | .strVal s => .lit (.strL s)
  | .arrayVal elemTy elems =>
      .composite (.arrayOf elems.length (g.getTypeStatement elemTy))
        (elems.attach.map (fun ⟨e, he⟩ => g.getValueStatement e))
  | .sliceVal elemTy elems =>
      .composite (.sliceOf (g.getTypeStatement elemTy))
        (elems.attach.map (fun ⟨e, he⟩ => g.getValueStatement e))
  | .mapVal keyTy elemTy entries => g.getMapStatement keyTy elemTy entries
  | .timeVal t =>
      .call (.qual "time" "Date")
        [.lit (.intL t.year), .qual "time" t.month, .lit (.intL t.day),
         .lit (.intL t.hour), .lit (.intL t.minute), .lit (.intL t.second),
         .lit (.intL t.nanosecond), .qual "time" "UTC"]
  | .structVal ty fields =>
      if strContainsChar g.outputFile '/' ∧ ty.pkgPath ≠ "" ∧ ty.pkgPath ≠ "main"
          ∧ ty.pkgPath ≠ g.packageName then
        .structComposite (.qualNamed ty.pkgPath ty.name)
          (g.generateStructValuesFields fields)
      else
        .structComposite (.named ty.name)
          (g.generateStructValuesFields fields)
  | .ptrVal none => .nilE
  | .ptrVal (some v) => .addrOf (g.getValueStatement v)
  | .ifaceVal none => .nilE
  | .ifaceVal (some v) => g.getValueStatement v
  | .otherVal s => .lit (.strL s)
termination_by v => sizeOf v
decreasing_by
  all_goals simp_wf
  all_goals first
    | omega
    | (have hm := List.sizeOf_lt_of_mem he; omega)

/-- `getMapStatement` (src/values.go:110-140): an explicit empty map
literal for zero entries, otherwise the key→value literal set with both
sides recursively emitted.  Go map iteration order is unspecified; the
model renders entries in list order. -/
def Generator.getMapStatement (g : Generator) (keyTy elemTy : GoType)
    (entries : List (GoValue × GoValue)) : Expr :=
  if entries.isEmpty then
    .mapComposite (.mapOf (g.getTypeStatement keyTy) (g.getTypeStatement elemTy)) []
  else
    .mapComposite (.mapOf (g.getTypeStatement keyTy) (g.getTypeStatement elemTy))
      (entries.attach.map (fun ⟨kv, hkv⟩ =>
        (g.getValueStatement kv.1, g.getValueStatement kv.2)))
termination_by sizeOf entries
decreasing_by
  all_goals simp_wf
  all_goals
    (have hm := List.sizeOf_lt_of_mem hkv
     have h1 := sizeOf_pair_fst_lt kv
     have h2 := sizeOf_pair_snd_lt kv
     omega)

/-- `generateStructValues` (src/values.go:143-234) on the field list of
an already-dereferenced struct: first pass renders every exported
untagged field (with the embedded-field qualification special case);
the second pass renders the deferred `structgen`-tagged fields through
the reference engine, dropping fields whose binding is unsupported.
(The jennifer `Dict` sorts keys at render time; the model keeps the
logical insertion order.  Go panics on an embedded non-struct value at
`field.NumField()`; the model falls back to the regular rendering.) -/
def Generator.generateStructValuesFields (g : Generator)
    (fields : List GoField) : List (String × Expr) :=
  let firstPass := fields.attach.flatMap (fun ⟨f, hf⟩ =>
    if !f.exported then []
    else if (match f.tag with
             | some tagVal => tagVal != ""
             | none => false) then []
    else if f.anonymous && strContainsChar g.outputFile '/'
        && f.ty.pkgPathOf != "" && f.ty.pkgPathOf != "main"
        && f.ty.pkgPathOf != g.packageName then
      match hfv : f.value with
      | .structVal _ innerFields =>
          [(f.name, Expr.structComposite
              (.qualNamed f.ty.pkgPathOf f.ty.nameOf)
              (innerFields.attach.flatMap (fun ⟨inf, hinf⟩ =>
                if !inf.exported then []
                else [(inf.name, g.getValueStatement inf.value)])))]
      | v => [(f.name, g.getValueStatement v)]
    else [(f.name, g.getValueStatement f.value)])
  let deferredFields := fields.filter (fun f =>
    f.exported && (match f.tag with
                   | some tagVal => tagVal != ""
                   | none => false))
  let secondPass := deferredFields.flatMap (fun df =>
    match g.generateStructGenField fields (df.tag.getD "") df with
    | some v => [(df.name, v)]
    | none => [])
  firstPass ++ secondPass
termination_by sizeOf fields
decreasing_by
  all_goals simp_wf
  all_goals first
    | exact sizeOf_inner_lt hinf hfv hf
    | exact hfv ▸ sizeOf_field_value_lt_of_mem hf
    | exact sizeOf_field_value_lt_of_mem hf

end

/-! ## Dataset declaration emitters
(src/unnamed/part_016, src/unnamed/part_000:79-209) -/

/-- One emitted top-level declaration. -/
inductive Decl where
  | constGroup (entries : List (String × String))
  | varDecl (name : String) (value : Expr)
  | sliceDecl (name : String) (ty : TypeExpr) (elems : List Expr)

/-- `generateStructValues` (src/values.go:143-148): dereference a
pointer and render the struct's field dictionary. -/
def Generator.generateStructValues (g : Generator) (v : GoValue) :
    List (String × Expr) :=
  g.generateStructValuesFields (v.derefPtr).fieldsOf

/-- The case-insensitive "ID" field scan of `generateConstants`
(src/unnamed/part_016:26-33): the first field of the first record whose
lowercased name is "id". -/
def findIdFieldName (firstElem : GoValue) : Option String :=
  (firstElem.fieldsOf.find? (fun f => strToLower f.name == "id")).map GoField.name

/-- `generateConstants` (src/unnamed/part_016:12-68): when the record
type has an "ID"-like field, emit one constant per record whose string
ID field is valid; an empty ID string is replaced by
`lower(TypeName)-<1-based position>`.  (Called only after the dataset
is validated non-empty; `Index(0)` would panic otherwise.) -/
def Generator.generateConstants (g : Generator) (elems : List GoValue) :
    Option Decl :=
  match elems.head? with
  | none => none
  | some e0 =>
    match findIdFieldName e0.derefPtr with
    | none => none
    | some idFieldName =>
      some (.constGroup (elems.enum.flatMap (fun p =>
        let i := p.1
        let elem := p.2.derefPtr
        match elem.fieldByName idFieldName with
        | some (.strVal s) =>
            let idValue := if s = "" then
                strToLower g.typeName ++ "-" ++ toString (i + 1)
              else s
            [(g.constantIdent ++ slugToIdentifier (g.getStructIdentifier elem)
                ++ "ID", idValue)]
        | _ => [])))

/-- The variable/slice element type statement shared by
`generateVariables` (src/unnamed/part_000:89-119) and `generateSlice`
(src/unnamed/part_000:150-188): qualified for a struct type from
another package in export mode, unless the configured type name already
carries a package qualifier; otherwise the configured type name. -/
def Generator.varTypeStmt (g : Generator) (elem : GoValue) : TypeExpr :=
  let structTy? : Option GoStructTy :=
    match elem with
    | .structVal ty _ => some ty
    | .ptrVal (some (.structVal ty _)) => some ty
    | .timeVal _ => some ⟨"Time", "time"⟩
    | .ptrVal (some (.timeVal _)) => some ⟨"Time", "time"⟩
    | _ => none
  match structTy? with
  | some st =>
    if strContainsChar g.outputFile '/' ∧ st.pkgPath ≠ "" ∧ st.pkgPath ≠ "main"
        ∧ st.pkgPath ≠ g.packageName then
      if (splitOnChar '.' g.typeName).length > 1 then .named g.typeName
      else .qualNamed st.pkgPath st.name
    else .named g.typeName
  | none => .named g.typeName

/-- `generateVariables` (src/unnamed/part_000:80-126): one variable per
record, named `VarPrefix ++ slug(identifier)`, holding the record's
field-literal composite. -/
def Generator.generateVariables (g : Generator) (elems : List GoValue) :
    List Decl :=
  elems.map (fun elem =>
    let identValue := g.getStructIdentifier elem
    let varName := g.varPrefix ++ slugToIdentifier identValue
    .varDecl varName
      (Expr.structComposite (g.varTypeStmt elem) (g.generateStructValues elem)))

/-- `generateSlice` (src/unnamed/part_000:129-209): the "all records"
collection `[]*T{&Var1, ...}` named by the pluralization heuristic. -/
def Generator.generateSlice (g : Generator) (elems : List GoValue) : Decl :=
  let sliceName := pluralSliceName g.typeName
  let typeStmt := match elems.head? with
    | some e0 => g.varTypeStmt e0
    | none => .named g.typeName
  .sliceDecl sliceName (.sliceOf (.ptrTo typeStmt))
    (elems.map (fun elem =>
      Expr.addrOf (.id (g.varPrefix ++ slugToIdentifier (g.getStructIdentifier elem)))))

/-- The per-dataset emission sequence of `Generate`
(src/generator.go:377-401, 437-441): constants, then variables, then
the collection slice. -/
def Generator.datasetDecls (g : Generator) (elems : List GoValue) : List Decl :=
  (match g.generateConstants elems with
   | some d => [d]
   | none => []) ++ g.generateVariables elems ++ [g.generateSlice elems]

/-! ## Generate orchestration (src/generator.go:147-210, 278-470) -/

/-- The typed validation errors (src/unnamed/part_002). -/
inductive GenError where
  | nonSliceOrArray (kind : GoKind)
  | emptyData
  | invalidType (kind : GoKind)
deriving DecidableEq, Repr

/-- The reference-map construction of `Generate`
(src/generator.go:283-299): slices/arrays are keyed by their element
struct type's bare name (pointer elements by the pointee type's name;
non-struct element types under a positional `Ref<i>` key); non-sequence
arguments are skipped. -/
def buildRefsFrom (i : Nat) (m : List (String × GoValue)) :
    List GoValue → List (String × GoValue)
  | [] => m
  | ref :: rest =>
    let m' := match ref with
      | .sliceVal elemTy _ =>
        (match elemTy with
         | .structTy st => insertRef m st.name ref
         | .ptrTy (.structTy st) => insertRef m st.name ref
         | _ => insertRef m ("Ref" ++ toString i) ref)
      | .arrayVal elemTy _ =>
        (match elemTy with
         | .structTy st => insertRef m st.name ref
         | .ptrTy (.structTy st) => insertRef m st.name ref
         | _ => insertRef m ("Ref" ++ toString i) ref)
      | _ => m
    buildRefsFrom (i + 1) m' rest

/-- `refElem.Kind() == Struct || (Kind() == Pointer && Elem().Kind() ==
Struct)`. -/
def isStructish (e : GoValue) : Bool :=
  match e with
  | .structVal _ _ => true
  | .timeVal _ => true
  | .ptrVal (some (.structVal _ _)) => true
  | .ptrVal (some (.timeVal _)) => true
  | _ => false

/-- `GetPackageNameFromPath` (src/generator.go:215-241), modelled
without `filepath.Clean`'s lexical normalization (no claim depends on
dot-segment handling): take the directory components, return the last
one, falling back to the previous one when it is empty, and to "main"
when there is none. -/
def getPackageNameFromPath (filePath : String) : String :=
  let comps := splitOnChar '/' filePath
  let dir := if comps.length ≤ 1 then ["."] else comps.dropLast
  match dir.getLast? with
  | some lastComp =>
    if lastComp ≠ "" then lastComp
    else match dir.dropLast.getLast? with
      | some second => second
      | none => "main"
  | none => "main"

/-- The struct element type of the first record, as discovered by
`inferConfig` (src/generator.go:161-172). -/
def firstStructTy : GoValue → Option GoStructTy
  | .structVal ty _ => some ty
  | .ptrVal (some (.structVal ty _)) => some ty
  | .timeVal _ => some ⟨"Time", "time"⟩
  | .ptrVal (some (.timeVal _)) => some ⟨"Time", "time"⟩
  | _ => none

/-- `inferConfig` (src/generator.go:147-210): validate the primary data
shape and fill unset configuration from the discovered element type.
A non-sequence primary yields `InvalidTypeError` (not
`NonSliceOrArrayError` — this runs before `Generate`'s own check). -/
def Generator.inferConfig (g : Generator) (data : GoValue) :
    Except GenError Generator :=
  let elems? : Option (List GoValue) := match data with
    | .sliceVal _ elems => some elems
    | .arrayVal _ elems => some elems
    | _ => none
  match elems? with
  | none => .error (.invalidType data.kind)
  | some elems =>
    match elems.head? with
    | none => .error .emptyData
    | some firstElem =>
      match firstStructTy firstElem with
      | none => .error (.invalidType firstElem.kind)
      | some st =>
        let g1 := if g.typeName = "" then { g with typeName := st.name } else g
        let g2 := if g1.constantIdent = "" then
            { g1 with constantIdent := g1.typeName } else g1
        let g3 := if g2.varPrefix = "" then
            { g2 with varPrefix := g2.typeName } else g2
        let g4 := if g3.outputFile = "" then
            { g3 with outputFile := strToLower g3.typeName ++ "_generated.go" }
          else g3
        let g5 := if g4.packageName = "" then
            { g4 with packageName := getPackageNameFromPath g4.outputFile }
          else g4
        .ok g5

/-- The body of `Generate`'s reference-dataset loop
(src/generator.go:415-449): a non-empty sequence of struct records is
emitted under the temporarily swapped naming configuration (TypeName,
VarPrefix, ConstantIdent all set to the dataset's kind name), which is
then restored from the saved originals; anything else is silently
skipped. -/
def Generator.processRefDataset (g : Generator) (kindName : String)
    (elems : List GoValue) : Generator × List Decl :=
  match elems.head? with
  | some refElem =>
    if isStructish refElem then
      let originalTypeName := g.typeName
      let originalVarPrefix := g.varPrefix
      let originalConstantIdent := g.constantIdent
      let g1 := { g with typeName := kindName, varPrefix := kindName,
                         constantIdent := kindName }
      let decls := g1.datasetDecls elems
      let g2 := { g1 with typeName := originalTypeName,
                          varPrefix := originalVarPrefix,
                          constantIdent := originalConstantIdent }
      (g2, decls)
    else (g, [])
  | none => (g, [])

/-- One iteration of `Generate`'s reference loop
(src/generator.go:410-450): the dataset value must be a slice or
array. -/
def Generator.processRefEntry (g : Generator) (kv : String × GoValue) :
    Generator × List Decl :=
  match kv.2 with
  | .sliceVal _ elems => g.processRefDataset kv.1 elems
  | .arrayVal _ elems => g.processRefDataset kv.1 elems
  | _ => (g, [])

/-- `Generate`'s reference loop over the map entries (Go map iteration
order is unspecified; the model iterates in insertion order, which
affects only the ordering of the emitted groups). -/
def Generator.processRefs (g : Generator) :
    List (String × GoValue) → Generator × List Decl
  | [] => (g, [])
  | kv :: rest =>
    let p1 := g.processRefEntry kv
    let p2 := p1.1.processRefs rest
    (p2.1, p1.2 ++ p2.2)

/-- The output of one generation run: the final generator state, the
generated-file header comment, and the emitted declarations.  The
single `os.WriteFile` happens after all rendering succeeds, so an
error return writes nothing. -/
structure GenOutput where
  config : Generator
  header : String
  decls : List Decl

/-- `Generate` (src/generator.go:278-470): build the reference map,
infer configuration (validating the primary data), re-validate the
primary data (dead checks — `inferConfig` already rejected those
shapes, with `InvalidTypeError` where the later check would have
produced `NonSliceOrArrayError`), emit the primary dataset, then
process each reference dataset under the swap-and-restore naming
discipline, and finally render and write once.  (The build-info read
and the jennifer render are modelled as always succeeding; neither
inspects the data.) -/
def Generator.generate (g0 : Generator) (data : GoValue)
    (refsArgs : List GoValue) : Except GenError GenOutput :=
  let g := { g0 with refs := buildRefsFrom 0 [] refsArgs }
  match g.inferConfig data with
  | .error e => .error e
  | .ok g =>
    let header := "Code generated by genstruct. DO NOT EDIT."
    let elems? : Option (List GoValue) := match data with
      | .sliceVal _ elems => some elems
      | .arrayVal _ elems => some elems
      | _ => none
    match elems? with
    | none => .error (.nonSliceOrArray data.kind)
    | some elems =>
      match elems.head? with
      | none => .error .emptyData
      | some firstElem =>
        if !(isStructish firstElem) then .error (.invalidType firstElem.kind)
        else
          let primaryDecls := g.datasetDecls elems
          let p := g.processRefs g.refs
          .ok ⟨p.1, header, primaryDecls ++ p.2⟩

/-! ## Claim theorems -/

/-- The element list of a composite literal expression. -/
def Expr.compositeElems : Expr → List Expr
  | .composite _ es => es
  | _ => []

/-- The target type of a relationship binding with the given
pointer-ness: `T` or `*T` (used as the slice element type for the
sequence shape and as the whole target type for the single shape). -/
def refTargetTy (isPtr : Bool) (st : GoStructTy) : GoType :=
  if isPtr then .ptrTy (.structTy st) else .structTy st

theorem refTargetTy_isPtrTy (isPtr : Bool) (st : GoStructTy) :
    (refTargetTy isPtr st).isPtrTy = isPtr := by
  cases isPtr <;> rfl

theorem refTargetTy_elemIfPtr (isPtr : Bool) (st : GoStructTy) :
    (refTargetTy isPtr st).elemIfPtr = .structTy st := by
  cases isPtr <;> rfl

/-- C8: `getValueStatement` renders a `time.Time` struct value as the
explicit `time.Date(year, time.<Month>, day, hour, minute, second,
nanosecond, time.UTC)` constructor call — with the UTC zone as the
location argument — and never as an opaque literal. -/
theorem timeEmission_C8 (g : Generator) (t : TimeParts) :
    g.getValueStatement (.timeVal t) =
      .call (.qual "time" "Date")
        [.lit (.intL t.year), .qual "time" t.month, .lit (.intL t.day),
         .lit (.intL t.hour), .lit (.intL t.minute), .lit (.intL t.second),
         .lit (.intL t.nanosecond), .qual "time" "UTC"] ∧
    ∀ l : Lit, g.getValueStatement (.timeVal t) ≠ .lit l := by
  have h : g.getValueStatement (.timeVal t) =
      .call (.qual "time" "Date")
        [.lit (.intL t.year), .qual "time" t.month, .lit (.intL t.day),
         .lit (.intL t.hour), .lit (.intL t.minute), .lit (.intL t.second),
         .lit (.intL t.nanosecond), .qual "time" "UTC"] := by
    simp [Generator.getValueStatement]
  refine ⟨h, fun l hl => ?_⟩
  rw [h] at hl
  exact Expr.noConfusion hl

/-- C10: reference datasets are keyed by their element type's bare
name, so of two datasets with the same element type name the later one
silently replaces the earlier in the reference map, and single-value
resolution against that type name behaves exactly as if only the later
dataset had been supplied. -/
theorem refKeying_C10 (g : Generator) (st : GoStructTy)
    (ds1 ds2 : List GoValue) (srcv : GoValue) (isPtr : Bool) :
    lookupRef
        (buildRefsFrom 0 []
          [.sliceVal (.structTy st) ds1, .sliceVal (.structTy st) ds2])
        st.name = some (.sliceVal (.structTy st) ds2) ∧
    Generator.generateReferenceSingle
        { g with refs := (buildRefsFrom 0 []
            [.sliceVal (.structTy st) ds1, .sliceVal (.structTy st) ds2]) }
        srcv (refTargetTy isPtr st) =
      Generator.generateReferenceSingle
        { g with refs := (buildRefsFrom 0 [] [.sliceVal (.structTy st) ds2]) }
        srcv (refTargetTy isPtr st) := by
  have hm : buildRefsFrom 0 []
      [GoValue.sliceVal (.structTy st) ds1, GoValue.sliceVal (.structTy st) ds2] =
      [(st.name, GoValue.sliceVal (.structTy st) ds2)] := by
    simp [buildRefsFrom, insertRef]
  have hm2 : buildRefsFrom 0 [] [GoValue.sliceVal (.structTy st) ds2] =
      [(st.name, GoValue.sliceVal (.structTy st) ds2)] := by
    simp [buildRefsFrom, insertRef]
  constructor
  · rw [hm]
    simp [lookupRef]
  · rw [hm, hm2]

theorem findFirstMatch_none (idFields : List String) (idv : String)
    (l : List GoValue)
    (h : ∀ r ∈ l, anyIdFieldMatches idFields r.derefPtr idv = false) :
    findFirstMatch idFields idv l = none := by
  induction l with
  | nil => rfl
  | cons e rest ih =>
      simp only [findFirstMatch]
      rw [h e (List.mem_cons_self e rest)]
      simp only [Bool.false_eq_true, if_false]
      exact ih (fun r hr => h r (List.mem_cons_of_mem _ hr))

theorem findFirstMatch_append (idFields : List String) (idv : String)
    (pre : List GoValue) (r : GoValue) (post : List GoValue)
    (hpre : ∀ r' ∈ pre, anyIdFieldMatches idFields r'.derefPtr idv = false)
    (hr : anyIdFieldMatches idFields r.derefPtr idv = true) :
    findFirstMatch idFields idv (pre ++ r :: post) = some r.derefPtr := by
  induction pre with
  | nil => simp [findFirstMatch, hr]
  | cons e rest ih =>
      simp only [List.cons_append, findFirstMatch]
      rw [hpre e (List.mem_cons_self e rest)]
      simp only [Bool.false_eq_true, if_false]
      exact ih (fun r' hr' => hpre r' (List.mem_cons_of_mem _ hr'))

theorem flatMap_single_if_nil {α β} (l : List α) (p : α → Bool) (f : α → β)
    (h : ∀ x ∈ l, p x = false) :
    (l.flatMap (fun a => if p a then [f a] else [])) = [] := by
  induction l with
  | nil => rfl
  | cons a rest ih =>
      simp only [List.flatMap_cons]
      rw [h a (List.mem_cons_self a rest)]
      simp only [Bool.false_eq_true, if_false, List.nil_append]
      exact ih (fun x hx => h x (List.mem_cons_of_mem _ hx))

theorem length_flatMap_single_if {α β} (l : List α) (p : α → Bool) (f : α → β) :
    (l.flatMap (fun a => if p a then [f a] else [])).length = l.countP p := by
  induction l with
  | nil => rfl
  | cons a rest ih =>
      by_cases hp : p a <;> simp [hp, ih, List.countP_cons]

/-- C4: a tagged single-value field with no matching record in the
target dataset — or whose target dataset is not among the known
reference datasets — renders the zero-valued placeholder of the
declared target type (`T{}` for value semantics, `&T{}` for pointer
semantics).  `generateReferenceSingle` is a total function into
expressions (no error value exists), so the run never aborts on this
path. -/
theorem referenceResolution_C4 (g : Generator) (st : GoStructTy)
    (isPtr : Bool) (srcv : GoValue) (ty : GoType) (ds : List GoValue) :
    (lookupRef g.refs st.name = none →
      g.generateReferenceSingle srcv (refTargetTy isPtr st) =
        singleRefPlaceholder isPtr st.name) ∧
    (lookupRef g.refs st.name = some (.sliceVal ty ds) →
      (∀ r ∈ ds,
        anyIdFieldMatches g.identifierFields r.derefPtr srcv.reflectString = false) →
      g.generateReferenceSingle srcv (refTargetTy isPtr st) =
        singleRefPlaceholder isPtr st.name) := by
  constructor
  · intro hlk
    simp only [Generator.generateReferenceSingle, refTargetTy_isPtrTy,
      refTargetTy_elemIfPtr, GoType.nameOf, hlk]
  · intro hlk hnone
    simp only [Generator.generateReferenceSingle, refTargetTy_isPtrTy,
      refTargetTy_elemIfPtr, GoType.nameOf, hlk]
    rw [findFirstMatch_none g.identifierFields srcv.reflectString ds hnone]

/-- C3: a tagged sequence field renders an empty sequence literal of
the declared target element type (with its declared pointer/value
semantics) when the source string sequence is empty, and a source
identifier with no matching record contributes nothing to the rendered
sequence (it is omitted, not replaced by a placeholder). -/
theorem referenceResolution_C3 (g : Generator) (st : GoStructTy)
    (isPtr : Bool) (srcTy ty : GoType) (pre post ds : List GoValue)
    (idv : String) :
    (g.generateReferenceSlice (.sliceVal srcTy [])
        (.sliceTy (refTargetTy isPtr st)) =
      .composite
        (sliceRefHeader isPtr (g.refUseQualified st.pkgPath) st.pkgPath st.name)
        []) ∧
    (lookupRef g.refs st.name = some (.sliceVal ty ds) →
      (∀ r ∈ ds, anyIdFieldMatches g.identifierFields r.derefPtr idv = false) →
      g.generateReferenceSlice (.sliceVal srcTy (pre ++ .strVal idv :: post))
          (.sliceTy (refTargetTy isPtr st)) =
        g.generateReferenceSlice (.sliceVal srcTy (pre ++ post))
          (.sliceTy (refTargetTy isPtr st))) := by
  constructor
  · rcases hlk : lookupRef g.refs st.name with _ | v
    · simp only [Generator.generateReferenceSlice, refTargetTy_isPtrTy,
        refTargetTy_elemIfPtr, GoType.nameOf, GoType.pkgPathOf, hlk]
    · cases v <;>
        simp [Generator.generateReferenceSlice, refTargetTy_isPtrTy,
          refTargetTy_elemIfPtr, GoType.nameOf, GoType.pkgPathOf, hlk,
          srcStringList]
  · intro hlk hnone
    simp only [Generator.generateReferenceSlice, refTargetTy_isPtrTy,
      refTargetTy_elemIfPtr, GoType.nameOf, GoType.pkgPathOf, hlk,
      srcStringList, List.map_append, List.map_cons, List.flatMap_append,
      List.flatMap_cons, GoValue.reflectString]
    rw [flatMap_single_if_nil ds _ _ hnone]
    simp

/-! ### Concrete fixtures for witnesses and counterexamples -/

def tagTy : GoStructTy := ⟨"Tag", ""⟩

def tagGo : GoValue :=
  .structVal tagTy
    [.mk "ID" true false none .strTy (.strVal "t1"),
     .mk "Name" true false none .strTy (.strVal "Go"),
     .mk "Slug" true false none .strTy (.strVal "go")]

def tagRust : GoValue :=
  .structVal tagTy
    [.mk "ID" true false none .strTy (.strVal "t2"),
     .mk "Name" true false none .strTy (.strVal "Rust"),
     .mk "Slug" true false none .strTy (.strVal "rust")]

/-- A generator holding one `Tag` reference dataset (all other
configuration left at the `NewGenerator` defaults). -/
def gWit : Generator :=
  { refs := [("Tag", .sliceVal (.structTy tagTy) [tagGo, tagRust])] }

/-- C4 witness: a single-value binding against an unknown dataset
(`Author`) and one against `Tag` with an unmatched identifier both
render the zero-valued placeholder. -/
theorem referenceResolution_C4_witness :
    (gWit.generateReferenceSingle (.strVal "nope")
        (refTargetTy true ⟨"Author", ""⟩) =
      singleRefPlaceholder true "Author") ∧
    (gWit.generateReferenceSingle (.strVal "zzz")
        (refTargetTy false tagTy) =
      singleRefPlaceholder false "Tag") :=
  ⟨(referenceResolution_C4 gWit ⟨"Author", ""⟩ true (.strVal "nope")
      .strTy []).1 rfl,
   (referenceResolution_C4 gWit tagTy false (.strVal "zzz")
      (.structTy tagTy) [tagGo, tagRust]).2 rfl (by decide)⟩

/-- C3 witness: an empty source sequence renders the empty `[]*Tag{}`
literal, and an unmatched identifier in the source sequence is omitted
from the rendered sequence. -/
theorem referenceResolution_C3_witness :
    (gWit.generateReferenceSlice (.sliceVal .strTy [])
        (.sliceTy (refTargetTy true tagTy)) =
      .composite
        (sliceRefHeader true (gWit.refUseQualified "") "" "Tag") []) ∧
    (gWit.generateReferenceSlice
        (.sliceVal .strTy [.strVal "go", .strVal "zzz"])
        (.sliceTy (refTargetTy true tagTy)) =
      gWit.generateReferenceSlice (.sliceVal .strTy [.strVal "go"])
        (.sliceTy (refTargetTy true tagTy))) :=
  ⟨(referenceResolution_C3 gWit tagTy true .strTy (.structTy tagTy)
      [] [] [tagGo, tagRust] "zzz").1,
   (referenceResolution_C3 gWit tagTy true .strTy (.structTy tagTy)
      [.strVal "go"] [] [tagGo, tagRust] "zzz").2 rfl (by decide)⟩

/-- C1 counterexample: with two records sharing the identifier "dup"
in the `Tag` dataset, one source identifier contributes two reference
expressions to the sequence output — the record scan does not stop at
the first matching record (the `break` in src/values.go:416 exits only
the identifier-field loop), contradicting the at-most-one-per-
identifier consequence. -/
def dupTag : GoValue :=
  .structVal tagTy [.mk "ID" true false none .strTy (.strVal "dup")]

def gDup : Generator :=
  { refs := [("Tag", .sliceVal (.structTy tagTy) [dupTag, dupTag])] }

theorem referenceResolution_C1_counterexample :
    (srcStringList (.sliceVal .strTy [.strVal "dup"])).length = 1 ∧
    (Expr.compositeElems
        (gDup.generateReferenceSlice (.sliceVal .strTy [.strVal "dup"])
          (.sliceTy (.ptrTy (.structTy tagTy))))).length = 2 :=
  ⟨rfl, rfl⟩

/-- C1 (amended): in the single-value shape, resolution scans the
target dataset in order, tests the configured identifier fields for
exact equality, and stops at the first matching record; in the
sequence shape the per-identifier scan visits every record and appends
one reference per matching record (only the identifier-field loop
stops early), so a source identifier contributes as many reference
expressions as there are matching records — exactly one only when the
identifier matches exactly one record. -/
theorem referenceResolution_C1_amended (g : Generator) (st : GoStructTy)
    (isPtr : Bool) (idv : String) (ty : GoType)
    (pre post refElems : List GoValue) (r : GoValue) :
    (lookupRef g.refs st.name = some (.sliceVal ty (pre ++ r :: post)) →
      (∀ r' ∈ pre, anyIdFieldMatches g.identifierFields r'.derefPtr idv = false) →
      anyIdFieldMatches g.identifierFields r.derefPtr idv = true →
      g.generateReferenceSingle (.strVal idv) (refTargetTy isPtr st) =
        varRefExpr isPtr
          (st.name ++ slugToIdentifier (g.getStructIdentifier r.derefPtr))) ∧
    (lookupRef g.refs st.name = some (.sliceVal ty refElems) →
      ∀ srcTy (ids : List GoValue),
        (Expr.compositeElems
            (g.generateReferenceSlice (.sliceVal srcTy ids)
              (.sliceTy (refTargetTy isPtr st)))).length =
          (ids.map (fun iv => refElems.countP
            (fun re =>
              anyIdFieldMatches g.identifierFields re.derefPtr iv.reflectString))).sum) := by
  constructor
  · intro hlk hpre hr
    simp only [Generator.generateReferenceSingle, refTargetTy_isPtrTy,
      refTargetTy_elemIfPtr, GoType.nameOf, hlk, GoValue.reflectString]
    rw [findFirstMatch_append g.identifierFields idv pre r post hpre hr]
  · intro hlk srcTy ids
    simp only [Generator.generateReferenceSlice, refTargetTy_isPtrTy,
      refTargetTy_elemIfPtr, GoType.nameOf, GoType.pkgPathOf, hlk,
      srcStringList, Expr.compositeElems]
    rw [List.length_flatMap]
    rw [List.map_map]
    congr 1
    apply List.map_congr_left
    intro iv _
    exact length_flatMap_single_if refElems _ _

/-- C1 witness: the amended theorem applied at a `Tag` dataset where
"rust" matches the second record (first-match resolution) and where the
per-identifier reference count equals the per-identifier match count. -/
theorem referenceResolution_C1_witness :
    (gWit.generateReferenceSingle (.strVal "rust")
        (refTargetTy true tagTy) =
      varRefExpr true
        ("Tag" ++ slugToIdentifier (gWit.getStructIdentifier tagRust.derefPtr))) ∧
    (Expr.compositeElems
        (gWit.generateReferenceSlice
          (.sliceVal .strTy [.strVal "go", .strVal "zzz"])
          (.sliceTy (refTargetTy true tagTy)))).length =
      ([GoValue.strVal "go", GoValue.strVal "zzz"].map
        (fun iv => [tagGo, tagRust].countP
          (fun re =>
            anyIdFieldMatches gWit.identifierFields re.derefPtr
              iv.reflectString))).sum :=
  ⟨(referenceResolution_C1_amended gWit tagTy true "rust" (.structTy tagTy)
      [tagGo] [] [tagGo, tagRust] tagRust).1 rfl (by decide) (by decide),
   (referenceResolution_C1_amended gWit tagTy true "rust" (.structTy tagTy)
      [tagGo] [] [tagGo, tagRust] tagRust).2 rfl .strTy
      [.strVal "go", .strVal "zzz"]⟩

/-! ### C2: validation is primary-only -/

theorem isStructish_eq (e : GoValue) :
    isStructish e = (firstStructTy e).isSome := by
  cases e with
  | ptrVal p =>
      cases p with
      | none => rfl
      | some v => cases v <;> rfl
  | _ => rfl

/-- The structural violation of the primary input, if any, together
with the typed error `Generate` reports for it (the spec-side
classifier used to state the amended C2). -/
def primaryViolation (data : GoValue) : Option GenError :=
  match data with
  | .sliceVal _ elems =>
    (match elems.head? with
     | none => some .emptyData
     | some firstElem =>
       match firstStructTy firstElem with
       | some _ => none
       | none => some (.invalidType firstElem.kind))
  | .arrayVal _ elems =>
    (match elems.head? with
     | none => some .emptyData
     | some firstElem =>
       match firstStructTy firstElem with
       | some _ => none
       | none => some (.invalidType firstElem.kind))
  | _ => some (.invalidType data.kind)

/-- C2 (amended): only the primary input is validated.  A primary that
is not a slice/array, is empty, or whose first element is not a struct
or pointer-to-struct makes `Generate` return the corresponding typed
error before any output is produced (`InvalidTypeError` for
non-sequences — `inferConfig` rejects them before the
`NonSliceOrArrayError` check can run — and `EmptyError` /
`InvalidTypeError` for the other violations); with a valid primary the
run always completes, whatever the reference datasets look like —
invalid or empty reference datasets are silently skipped, never
reported. -/
theorem generate_C2_amended (g : Generator) (data : GoValue)
    (refsArgs : List GoValue) :
    (∀ e, primaryViolation data = some e →
      g.generate data refsArgs = .error e) ∧
    (primaryViolation data = none →
      ∃ out, g.generate data refsArgs = .ok out) := by
  cases data with
  | sliceVal ty elems =>
      cases elems with
      | nil =>
          refine ⟨fun e he => ?_, fun h => ?_⟩
          · have : GenError.emptyData = e := Option.some.inj he
            subst this
            rfl
          · exact Option.noConfusion h
      | cons e0 rest =>
          rcases hft : firstStructTy e0 with _ | st
          · refine ⟨fun e he => ?_, fun h => ?_⟩
            · have hv : primaryViolation (.sliceVal ty (e0 :: rest)) =
                  some (.invalidType e0.kind) := by
                simp [primaryViolation, hft]
              rw [hv] at he
              have : GenError.invalidType e0.kind = e := Option.some.inj he
              subst this
              simp [Generator.generate, Generator.inferConfig, hft]
            · have hv : primaryViolation (.sliceVal ty (e0 :: rest)) =
                  some (.invalidType e0.kind) := by
                simp [primaryViolation, hft]
              rw [hv] at h
              exact Option.noConfusion h
          · refine ⟨fun e he => ?_, fun _ => ?_⟩
            · have hv : primaryViolation (.sliceVal ty (e0 :: rest)) = none := by
                simp [primaryViolation, hft]
              rw [hv] at he
              exact Option.noConfusion he
            · simp only [Generator.generate, Generator.inferConfig, hft,
                List.head?_cons, isStructish_eq, Option.isSome_some,
                Bool.not_true, Bool.false_eq_true, if_false]
              exact ⟨_, rfl⟩
  | arrayVal ty elems =>
      cases elems with
      | nil =>
          refine ⟨fun e he => ?_, fun h => ?_⟩
          · have : GenError.emptyData = e := Option.some.inj he
            subst this
            rfl
          · exact Option.noConfusion h
      | cons e0 rest =>
          rcases hft : firstStructTy e0 with _ | st
          · refine ⟨fun e he => ?_, fun h => ?_⟩
            · have hv : primaryViolation (.arrayVal ty (e0 :: rest)) =
                  some (.invalidType e0.kind) := by
                simp [primaryViolation, hft]
              rw [hv] at he
              have : GenError.invalidType e0.kind = e := Option.some.inj he
              subst this
              simp [Generator.generate, Generator.inferConfig, hft]
            · have hv : primaryViolation (.arrayVal ty (e0 :: rest)) =
                  some (.invalidType e0.kind) := by
                simp [primaryViolation, hft]
              rw [hv] at h
              exact Option.noConfusion h
          · refine ⟨fun e he => ?_, fun _ => ?_⟩
            · have hv : primaryViolation (.arrayVal ty (e0 :: rest)) = none := by
                simp [primaryViolation, hft]
              rw [hv] at he
              exact Option.noConfusion he
            · simp only [Generator.generate, Generator.inferConfig, hft,
                List.head?_cons, isStructish_eq, Option.isSome_some,
                Bool.not_true, Bool.false_eq_true, if_false]
              exact ⟨_, rfl⟩
  | boolVal b => exact ⟨fun e he => by rw [← Option.some.inj he]; rfl,
      fun h => Option.noConfusion h⟩
  | intVal i => exact ⟨fun e he => by rw [← Option.some.inj he]; rfl,
      fun h => Option.noConfusion h⟩
  | uintVal u => exact ⟨fun e he => by rw [← Option.some.inj he]; rfl,
      fun h => Option.noConfusion h⟩
  | strVal s => exact ⟨fun e he => by rw [← Option.some.inj he]; rfl,
      fun h => Option.noConfusion h⟩
  | mapVal k v en => exact ⟨fun e he => by rw [← Option.some.inj he]; rfl,
      fun h => Option.noConfusion h⟩
  | timeVal t => exact ⟨fun e he => by rw [← Option.some.inj he]; rfl,
      fun h => Option.noConfusion h⟩
  | structVal ty fs => exact ⟨fun e he => by rw [← Option.some.inj he]; rfl,
      fun h => Option.noConfusion h⟩
  | ptrVal p => exact ⟨fun e he => by rw [← Option.some.inj he]; rfl,
      fun h => Option.noConfusion h⟩
  | ifaceVal v => exact ⟨fun e he => by rw [← Option.some.inj he]; rfl,
      fun h => Option.noConfusion h⟩
  | otherVal s => exact ⟨fun e he => by rw [← Option.some.inj he]; rfl,
      fun h => Option.noConfusion h⟩

def postTy : GoStructTy := ⟨"Post", ""⟩

def postRec : GoValue :=
  .structVal postTy [.mk "ID" true false none .strTy (.strVal "p1")]

def genOk (r : Except GenError GenOutput) : Bool :=
  match r with
  | .ok _ => true
  | .error _ => false

/-- C2 counterexample: with a valid primary dataset, a run supplied
with an empty reference dataset and a non-sequence reference argument
(both violations of the claimed per-reference-dataset validation)
completes successfully instead of returning a typed error. -/
theorem generate_C2_counterexample :
    genOk (Generator.generate {} (.sliceVal (.structTy postTy) [postRec])
      [.sliceVal (.structTy tagTy) [], .intVal 3]) = true := rfl

/-- C2 witness: the amended validation theorem applied to a non-slice
primary (typed error) and to a valid primary (successful run). -/
theorem generate_C2_witness :
    (Generator.generate {} (.intVal 7) [] = .error (.invalidType .intK)) ∧
    (∃ out, Generator.generate {}
      (.sliceVal (.structTy postTy) [postRec]) [] = .ok out) :=
  ⟨(generate_C2_amended {} (.intVal 7) []).1 (.invalidType .intK) rfl,
   (generate_C2_amended {} (.sliceVal (.structTy postTy) [postRec]) []).2 rfl⟩

/-! ### C5: the naming swap-and-restore discipline -/

/-- A declaration is named under the kind `k`: constant and variable
names start with `k`, and the collection name is the pluralized kind
name. -/
def declUnderKind (k : String) : Decl → Prop
  | .constGroup entries => ∀ p ∈ entries, ∃ rest, p.1 = k ++ rest
  | .varDecl n _ => ∃ rest, n = k ++ rest
  | .sliceDecl n _ _ => n = pluralSliceName k

theorem processRefEntry_fst (g : Generator) (kv : String × GoValue) :
    (g.processRefEntry kv).1 = g := by
  obtain ⟨k, v⟩ := kv
  cases v with
  | sliceVal ty elems =>
      simp only [Generator.processRefEntry, Generator.processRefDataset]
      rcases h0 : elems.head? with _ | refElem
      · rfl
      · by_cases hst : isStructish refElem
        · simp only [hst, if_true]
        · simp only [hst, Bool.false_eq_true, if_false]
  | arrayVal ty elems =>
      simp only [Generator.processRefEntry, Generator.processRefDataset]
      rcases h0 : elems.head? with _ | refElem
      · rfl
      · by_cases hst : isStructish refElem
        · simp only [hst, if_true]
        · simp only [hst, Bool.false_eq_true, if_false]
  | boolVal b => rfl
  | intVal i => rfl
  | uintVal u => rfl
  | strVal sv => rfl
  | mapVal a b c => rfl
  | timeVal t => rfl
  | structVal a b => rfl
  | ptrVal p => rfl
  | ifaceVal p => rfl
  | otherVal sv => rfl

theorem processRefs_fst (entries : List (String × GoValue)) (g : Generator) :
    (g.processRefs entries).1 = g := by
  induction entries generalizing g with
  | nil => rfl
  | cons kv rest ih =>
      simp only [Generator.processRefs]
      rw [processRefEntry_fst g kv, ih]

theorem generateConstants_names (g : Generator) (elems : List GoValue)
    (d : Decl) (h : g.generateConstants elems = some d) :
    ∃ entries, d = .constGroup entries ∧
      ∀ p ∈ entries, ∃ rest, p.1 = g.constantIdent ++ rest := by
  unfold Generator.generateConstants at h
  rcases he : elems.head? with _ | e0
  · rw [he] at h; exact Option.noConfusion h
  · rw [he] at h
    dsimp only at h
    rcases hfn : findIdFieldName e0.derefPtr with _ | fname
    · rw [hfn] at h; exact Option.noConfusion h
    · rw [hfn] at h
      refine ⟨_, (Option.some.inj h).symm, ?_⟩
      intro p hp
      obtain ⟨q, _, hpq⟩ := List.mem_flatMap.mp hp
      rcases hm : (q.2.derefPtr).fieldByName fname with _ | v
      · simp [hm] at hpq
      · cases v <;> simp [hm] at hpq
        case strVal s =>
          rw [hpq]
          exact ⟨_, String.append_assoc _ _ _⟩

theorem datasetDecls_underKind (g : Generator) (k : String)
    (elems : List GoValue) (h1 : g.typeName = k) (h2 : g.varPrefix = k)
    (h3 : g.constantIdent = k) :
    ∀ d ∈ g.datasetDecls elems, declUnderKind k d := by
  intro d hd
  simp only [Generator.datasetDecls, List.mem_append] at hd
  rcases hd with (hd | hd) | hd
  · rcases hc : g.generateConstants elems with _ | dc
    · rw [hc] at hd; simp at hd
    · rw [hc] at hd
      simp only [List.mem_singleton] at hd
      subst hd
      obtain ⟨entries, rfl, hnames⟩ := generateConstants_names g elems d hc
      intro p hp
      obtain ⟨rest, hr⟩ := hnames p hp
      exact ⟨rest, by rw [hr, h3]⟩
  · simp only [Generator.generateVariables, List.mem_map] at hd
    obtain ⟨elem, _, rfl⟩ := hd
    exact ⟨slugToIdentifier (g.getStructIdentifier elem), by rw [h2]⟩
  · simp only [List.mem_singleton] at hd
    subst hd
    show pluralSliceName g.typeName = pluralSliceName k
    rw [h1]

/-- C5: one iteration of `Generate`'s reference loop leaves the whole
generator state — in particular the naming configuration (TypeName,
VarPrefix, ConstantIdent) — exactly equal to its prior value, every
declaration it emits for the dataset keyed `kv.1` is named under that
kind, and the full reference loop restores the generator state as
well, so no dataset's declarations are emitted under another dataset's
naming. -/
theorem namingSwap_C5 (g : Generator) (kv : String × GoValue) :
    (g.processRefEntry kv).1 = g ∧
    (∀ d ∈ (g.processRefEntry kv).2, declUnderKind kv.1 d) ∧
    (∀ entries : List (String × GoValue), (g.processRefs entries).1 = g) := by
  refine ⟨processRefEntry_fst g kv, ?_, fun entries => processRefs_fst entries g⟩
  obtain ⟨k, v⟩ := kv
  cases v with
  | sliceVal ty elems =>
      simp only [Generator.processRefEntry, Generator.processRefDataset]
      rcases h0 : elems.head? with _ | refElem
      · intro d hd; simp at hd
      · by_cases hst : isStructish refElem
        · simp only [hst, if_true]
          intro d hd
          exact datasetDecls_underKind _ k elems rfl rfl rfl d hd
        · simp only [hst, Bool.false_eq_true, if_false]
          intro d hd; simp at hd
  | arrayVal ty elems =>
      simp only [Generator.processRefEntry, Generator.processRefDataset]
      rcases h0 : elems.head? with _ | refElem
      · intro d hd; simp at hd
      · by_cases hst : isStructish refElem
        · simp only [hst, if_true]
          intro d hd
          exact datasetDecls_underKind _ k elems rfl rfl rfl d hd
        · simp only [hst, Bool.false_eq_true, if_false]
          intro d hd; simp at hd
  | boolVal b => intro d hd; simp [Generator.processRefEntry] at hd
  | intVal i => intro d hd; simp [Generator.processRefEntry] at hd
  | uintVal u => intro d hd; simp [Generator.processRefEntry] at hd
  | strVal sv => intro d hd; simp [Generator.processRefEntry] at hd
  | mapVal a b c => intro d hd; simp [Generator.processRefEntry] at hd
  | timeVal t => intro d hd; simp [Generator.processRefEntry] at hd
  | structVal a b => intro d hd; simp [Generator.processRefEntry] at hd
  | ptrVal p => intro d hd; simp [Generator.processRefEntry] at hd
  | ifaceVal p => intro d hd; simp [Generator.processRefEntry] at hd
  | otherVal sv => intro d hd; simp [Generator.processRefEntry] at hd

/-- A one-record `Tag` reference dataset whose record has no fields
(so its declarations are small closed terms). -/
def tagRefDataset : GoValue := .sliceVal (.structTy tagTy) [.structVal tagTy []]

def gC5 : Generator :=
  { typeName := "Post", varPrefix := "Post", constantIdent := "Post" }

/-- The generator state during the processing of the `Tag` dataset
(naming swapped to "Tag"). -/
def gC5tag : Generator :=
  { gC5 with typeName := "Tag", varPrefix := "Tag", constantIdent := "Tag" }

/-- C5 witness: processing the `Tag` dataset restores the generator
exactly, the emitted collection declaration is named under the `Tag`
kind, and that declaration evaluates to the expected `AllTags`
collection. -/
theorem namingSwap_C5_witness :
    (gC5.processRefEntry ("Tag", tagRefDataset)).1 = gC5 ∧
    declUnderKind "Tag" (gC5tag.generateSlice [.structVal tagTy []]) ∧
    gC5tag.generateSlice [.structVal tagTy []] =
      Decl.sliceDecl "AllTags" (.sliceOf (.ptrTo (.named "Tag")))
        [.addrOf (.id "TagTag0")] :=
  ⟨(namingSwap_C5 gC5 ("Tag", tagRefDataset)).1,
   (namingSwap_C5 gC5 ("Tag", tagRefDataset)).2.1
     (gC5tag.generateSlice [.structVal tagTy []])
     (List.mem_cons_of_mem _ (List.mem_cons_self _ _)),
   rfl⟩

/-! ### C9: identifier constants for empty ID strings -/

/-- The constant entry produced for the record `a` at 0-based position
`i` (the per-record step of `generateConstants`; the `("", "")` default
is never reached when the ID field holds a string). -/
def constEntry (g : Generator) (fname : String) (i : Nat) (a : GoValue) :
    String × String :=
  match (a.derefPtr).fieldByName fname with
  | some (.strVal s) =>
      (g.constantIdent ++ slugToIdentifier (g.getStructIdentifier (a.derefPtr))
          ++ "ID",
       if s = "" then strToLower g.typeName ++ "-" ++ toString (i + 1) else s)
  | _ => ("", "")

theorem flatMap_enumFrom_spec {α β} (F : Nat × α → List β) (G : Nat → α → β)
    (P : α → Prop) (hF : ∀ i a, P a → F (i, a) = [G i a]) :
    ∀ (l : List α) (k : Nat), (∀ a ∈ l, P a) →
      ((List.enumFrom k l).flatMap F).length = l.length ∧
      ∀ i a, l.get? i = some a →
        ((List.enumFrom k l).flatMap F).get? i = some (G (k + i) a) := by
  intro l
  induction l with
  | nil =>
      intro k _
      exact ⟨rfl, fun i a h => by simp at h⟩
  | cons a rest ih =>
      intro k hP
      have hFa : F (k, a) = [G k a] := hF k a (hP a (List.mem_cons_self a rest))
      have hrest := ih (k + 1) (fun x hx => hP x (List.mem_cons_of_mem _ hx))
      constructor
      · simp only [List.enumFrom, List.flatMap_cons, hFa,
          List.singleton_append, List.length_cons, hrest.1]
      · intro i b hib
        cases i with
        | zero =>
            simp only [List.get?_cons_zero, Option.some.injEq] at hib
            subst hib
            simp only [List.enumFrom, List.flatMap_cons, hFa,
              List.singleton_append, List.get?_cons_zero, Nat.add_zero]
        | succ j =>
            simp only [List.get?_cons_succ] at hib
            have hj := hrest.2 j b hib
            simp only [List.enumFrom, List.flatMap_cons, hFa,
              List.singleton_append, List.get?_cons_succ]
            rw [hj]
            congr 2
            omega

/-- C9: when the record type has a string field named "id" (compared
case-insensitively), every record whose ID field is a string receives
an identifier constant — and with an empty ID string, the constant's
value is synthesized as the lowercased type name, a hyphen, and the
record's 1-based position in the dataset. -/
theorem constants_C9 (g : Generator) (elems : List GoValue) (e0 : GoValue)
    (fname : String) (h0 : elems.head? = some e0)
    (hfn : findIdFieldName e0.derefPtr = some fname)
    (hall : ∀ e ∈ elems, ∃ s, (e.derefPtr).fieldByName fname = some (.strVal s)) :
    ∃ entries, g.generateConstants elems = some (.constGroup entries) ∧
      entries.length = elems.length ∧
      ∀ i e s, elems.get? i = some e →
        (e.derefPtr).fieldByName fname = some (.strVal s) →
        ∃ nm, entries.get? i = some
          (nm, if s = "" then strToLower g.typeName ++ "-" ++ toString (i + 1)
               else s) := by
  have hspec := flatMap_enumFrom_spec
    (fun p =>
      let i := p.1
      let elem := p.2.derefPtr
      match elem.fieldByName fname with
      | some (.strVal s) =>
          let idValue := if s = "" then
              strToLower g.typeName ++ "-" ++ toString (i + 1)
            else s
          [(g.constantIdent ++ slugToIdentifier (g.getStructIdentifier elem)
              ++ "ID", idValue)]
      | _ => [])
    (constEntry g fname)
    (fun a => ∃ s, (a.derefPtr).fieldByName fname = some (.strVal s))
    (by
      intro i a ha
      obtain ⟨s, hs⟩ := ha
      simp only [hs, constEntry])
    elems 0 hall
  have henum : elems.enum = List.enumFrom 0 elems := rfl
  refine ⟨elems.enum.flatMap (fun p =>
      let i := p.1
      let elem := p.2.derefPtr
      match elem.fieldByName fname with
      | some (.strVal s) =>
          let idValue := if s = "" then
              strToLower g.typeName ++ "-" ++ toString (i + 1)
            else s
          [(g.constantIdent ++ slugToIdentifier (g.getStructIdentifier elem)
              ++ "ID", idValue)]
      | _ => []), ?_, ?_, ?_⟩
  · unfold Generator.generateConstants
    rw [h0]
    dsimp only
    rw [hfn]
  · rw [henum]
    exact hspec.1
  · intro i e s hie hs
    have hg := hspec.2 i e hie
    rw [Nat.zero_add] at hg
    rw [henum]
    refine ⟨(constEntry g fname i e).1, ?_⟩
    rw [hg]
    congr 1
    simp only [constEntry, hs]

def postEmptyId : GoValue :=
  .structVal postTy
    [.mk "ID" true false none .strTy (.strVal ""),
     .mk "Title" true false none .strTy (.strVal "Hello World")]

def gC9 : Generator := { typeName := "Post", constantIdent := "Post" }

/-- C9 witness: in a `Post` dataset whose second record has an empty ID
string, both records receive constants and the second constant's value
is "post-2". -/
theorem constants_C9_witness :
    ∃ entries, gC9.generateConstants [postRec, postEmptyId] =
        some (.constGroup entries) ∧
      entries.length = 2 ∧
      ∃ nm, entries.get? 1 = some (nm, "post-2") := by
  obtain ⟨entries, hgen, hlen, hval⟩ :=
    constants_C9 gC9 [postRec, postEmptyId] postRec "ID" rfl rfl
      (by
        intro e he
        rcases List.mem_cons.mp he with rfl | he2
        · exact ⟨"p1", rfl⟩
        · rcases List.mem_cons.mp he2 with rfl | he3
          · exact ⟨"", rfl⟩
          · cases he3)
  obtain ⟨nm, hnm⟩ := hval 1 postEmptyId "" rfl rfl
  exact ⟨entries, hgen, hlen, nm, hnm⟩

end Genstruct
